import Mathlib

/-!
Shallow embedding of the Polymarket subgraph's position-accounting code.

Sources embedded:
* `ConditionalTokensMapping.template.ts` — event handlers `handlePositionSplit`,
  `handlePositionsMerge`, `handleConditionResolution`.
* `utils/market-positions-utils.ts` — `getMarketPosition`,
  `updateNetPositionAndSave`, `updateMarketPositionFromTrade`,
  `updateMarketPositionsFromSplit`, `updateMarketPositionsFromMerge`,
  `updateMarketPositionsFromRedemption`.
* `utils/global-utils.ts` — `requireGlobal` (the condition counters).

Modelling conventions:
* AssemblyScript `BigInt` is modelled as `Int`; `BigInt.plus/minus/times` are
  `+ - *` and `BigInt.div` is `Int.tdiv` (truncating division toward zero).
* `BigDecimal` (used only for payout fractions) is modelled as `Rat`;
  `divDecimal` is rational division.
* The entity store is an association list per entity type; `save` prepends and
  `load` takes the first match, which is observationally the same as an
  overwriting keyed store.
* Handlers return the updated store; `log.error` appends to `Store.logs`.
  The one code path that throws (a trade whose transaction is missing) is
  modelled with `Except`.
-/

/-- One row of the `MarketPosition` entity (schema fields used by the code). -/
structure MarketPosition where
  id : String
  market : String
  user : String
  outcomeIndex : Int
  quantityBought : Int
  quantitySold : Int
  netQuantity : Int
  valueBought : Int
  valueSold : Int
  netValue : Int
deriving DecidableEq

/-- One row of the `Condition` entity (fields the embedded handlers touch;
`oracle`/`questionId` are set on preparation only and never read by the
embedded operations, so they are omitted). -/
structure Condition where
  id : String
  outcomeSlotCount : Nat
  fixedProductMarketMakers : List String
  payoutNumerators : Option (List Int)
  payoutDenominator : Option Int
  payouts : Option (List Rat)
  resolutionTimestamp : Option Int
  resolutionHash : Option String
deriving DecidableEq

/-- The `FixedProductMarketMaker` entity, of which the position code reads
only `outcomeSlotCount` (and uses existence for the dispatch filter). -/
structure FixedProductMarketMaker where
  id : String
  outcomeSlotCount : Nat
deriving DecidableEq

/-- The `Transaction` entity consumed by `updateMarketPositionFromTrade`. -/
structure Transaction where
  id : String
  type : String
  user : String
  market : String
  outcomeIndex : Int
  outcomeTokensAmount : Int
  tradeAmount : Int
deriving DecidableEq

/-- The `Split` audit entity. -/
structure Split where
  id : String
  timestamp : Int
  stakeholder : String
  collateralToken : String
  parentCollectionId : String
  condition : String
  partition : List Int
  amount : Int
deriving DecidableEq

/-- The `Merge` audit entity. -/
structure Merge where
  id : String
  timestamp : Int
  stakeholder : String
  collateralToken : String
  parentCollectionId : String
  condition : String
  partition : List Int
  amount : Int
deriving DecidableEq

/-- The `Global` singleton, restricted to the condition counters that
`handleConditionResolution` mutates (the volume/fee fields are written only
by trade code not embedded here). -/
structure Global where
  numConditions : Int
  numOpenConditions : Int
  numClosedConditions : Int
deriving DecidableEq

/-- A normalized `PositionSplit` event from the ConditionalTokens contract.
`transactionHash`/`logIndex` stand for `event.transaction.hash` and
`event.logIndex`, the ingredients of the event key. -/
structure PositionSplitEvent where
  stakeholder : String
  collateralToken : String
  parentCollectionId : String
  conditionId : String
  partition : List Int
  amount : Int
  timestamp : Int
  transactionHash : String
  logIndex : Int
deriving DecidableEq

/-- A normalized `PositionsMerge` event. -/
structure PositionsMergeEvent where
  stakeholder : String
  collateralToken : String
  parentCollectionId : String
  conditionId : String
  partition : List Int
  amount : Int
  timestamp : Int
  transactionHash : String
  logIndex : Int
deriving DecidableEq

/-- A normalized `PayoutRedemption` event. -/
structure PayoutRedemptionEvent where
  redeemer : String
  collateralToken : String
  parentCollectionId : String
  conditionId : String
  indexSets : List Int
  payout : Int
  timestamp : Int
  transactionHash : String
  logIndex : Int
deriving DecidableEq

/-- A normalized `ConditionResolution` event. -/
structure ConditionResolutionEvent where
  conditionId : String
  payoutNumerators : List Int
  timestamp : Int
  transactionHash : String
deriving DecidableEq

/-- The part of a generic `ethereum.Event` read by
`updateMarketPositionFromTrade` (only the transaction hash). -/
structure TradeEvent where
  transactionHash : String
deriving DecidableEq

/-- The entity store: one keyed table per entity type, plus the stream of
`log.error` messages. -/
structure Store where
  marketPositions : List (String × MarketPosition)
  conditions : List (String × Condition)
  fpmms : List (String × FixedProductMarketMaker)
  transactions : List (String × Transaction)
  splits : List (String × Split)
  merges : List (String × Merge)
  global : Option Global
  logs : List String
deriving DecidableEq

/-- Point lookup by key (`Entity.load`): first match wins. -/
def lookupEntity {α : Type} (key : String) : List (String × α) → Option α
  | [] => none
  | (k, v) :: rest => if key = k then some v else lookupEntity key rest

def Store.savePosition (store : Store) (position : MarketPosition) : Store :=
  { store with marketPositions := (position.id, position) :: store.marketPositions }

def Store.saveCondition (store : Store) (condition : Condition) : Store :=
  { store with conditions := (condition.id, condition) :: store.conditions }

def Store.saveSplit (store : Store) (split : Split) : Store :=
  { store with splits := (split.id, split) :: store.splits }

def Store.saveMerge (store : Store) (merge : Merge) : Store :=
  { store with merges := (merge.id, merge) :: store.merges }

def Store.addLog (store : Store) (message : String) : Store :=
  { store with logs := message :: store.logs }

/-- A store with no entities at all. -/
def emptyStore : Store :=
  { marketPositions := [], conditions := [], fpmms := [], transactions := []
    splits := [], merges := [], global := none, logs := [] }

/-- The templated NegRiskAdapter address constant from the mapping source
(a build-time mustache placeholder; only its identity matters here). -/
def negRiskAdapterAddress : String :=
  "\x7b\x7blowercase contracts.NegRiskAdapter.address\x7d\x7d"

/-- The templated CTFExchange address constant from the mapping source. -/
def exchangeAddress : String :=
  "\x7b\x7blowercase contracts.Exchange.address\x7d\x7d"

/-- The composite key built by `getMarketPosition`:
`user + market + outcomeIndex.toString()` (plain string concatenation). -/
def positionId (user market : String) (outcomeIndex : Int) : String :=
  user ++ market ++ toString outcomeIndex

/-- `getMarketPosition` from `market-positions-utils.ts`: returns the user's
position for the given market and outcome; if no such position exists a null
(all-zero) position is generated. -/
def getMarketPosition (user market : String) (outcomeIndex : Int)
    (store : Store) : MarketPosition :=
  match lookupEntity (positionId user market outcomeIndex) store.marketPositions with
  | some position => position
  | none =>
      { id := positionId user market outcomeIndex
        market := market
        user := user
        outcomeIndex := outcomeIndex
        quantityBought := 0
        quantitySold := 0
        netQuantity := 0
        valueBought := 0
        valueSold := 0
        netValue := 0 }

/-- The two derived-field assignments at the top of `updateNetPositionAndSave`:
`netQuantity = quantityBought - quantitySold`, `netValue = valueBought - valueSold`. -/
def recomputeNets (position : MarketPosition) : MarketPosition :=
  { position with
      netQuantity := position.quantityBought - position.quantitySold
      netValue := position.valueBought - position.valueSold }

/-- The `log.error` message of `updateNetPositionAndSave`, carrying the user,
the outcome index and the market of the offending position. -/
def invariantViolationMessage (position : MarketPosition) : String :=
  "Invalid position: user " ++ position.user ++
    " has negative netQuantity on outcome " ++ toString position.outcomeIndex ++
    " on market " ++ position.market

/-- `updateNetPositionAndSave`: recomputes the derived net fields, reports an
invariant violation when the net quantity is negative (log only — the
function cannot throw), and always commits the write. -/
def updateNetPositionAndSave (position : MarketPosition) (store : Store) : Store :=
  let position := recomputeNets position
  let store :=
    if position.netQuantity < 0 then
      store.addLog (invariantViolationMessage position)
    else store
  store.savePosition position

/-- `updateMarketPositionFromTrade`: loads the `Transaction` entity recorded
for the event's transaction hash and credits the trade to the position it
names. A missing transaction record throws (`throw new Error(...)` in the
source), aborting the handler invocation with no mutation — modelled as
`Except.error` carrying the thrown message. -/
def updateMarketPositionFromTrade (event : TradeEvent) (store : Store) :
    Except String Store :=
  match lookupEntity event.transactionHash store.transactions with
  | none =>
      Except.error "Could not find transaction with hash"
  | some transaction =>
      let position := getMarketPosition transaction.user transaction.market
        transaction.outcomeIndex store
      let position :=
        if transaction.type = "Buy" then
          { position with
              quantityBought := position.quantityBought + transaction.outcomeTokensAmount
              valueBought := position.valueBought + transaction.tradeAmount }
        else
          { position with
              quantitySold := position.quantitySold + transaction.outcomeTokensAmount
              valueSold := position.valueSold + transaction.tradeAmount }
      Except.ok (updateNetPositionAndSave position store)

/-- Idealized (unbounded-arithmetic) form of the index-set decoding loop of
`updateMarketPositionsFromRedemption`:
`let outcomeIndex = 0; while (1 << outcomeIndex < indexSets[i].toI32()) outcomeIndex += 1`.
The source computes `1 << outcomeIndex` in i32 and truncates the mask with
`toI32`; this form uses unbounded `2 ^ outcomeIndex`, which coincides with the
faithful i32 model `decodeStepI32` below exactly for masks `≤ 2 ^ 30`
(`decodeStepI32_agrees`) — the range in which the claim scenarios live. The
loop is phrased with an explicit fuel so it is structural recursion; fuel
`mask` oversuffices because `2 ^ k < mask` already fails at `k = mask`. -/
def decodeStep (mask : Nat) : Nat → Nat → Nat
  | 0, outcomeIndex => outcomeIndex
  | fuel + 1, outcomeIndex =>
      if 2 ^ outcomeIndex < mask then decodeStep mask fuel (outcomeIndex + 1)
      else outcomeIndex

/-- Result of the idealized decoding loop on one index-set mask; the in-range
abstraction used inside `updateMarketPositionsFromRedemption`. -/
def decodeOutcomeIndex (mask : Nat) : Nat :=
  decodeStep mask mask 0

/-- `BigInt.toI32`: truncate to the low 32 bits and interpret them as a
signed 32-bit value. -/
def toI32 (value : Int) : Int :=
  let low := value % 2 ^ 32
  if low < 2 ^ 31 then low else low - 2 ^ 32

/-- The i32 value of the AssemblyScript shift `1 << k`: the shift count is
taken mod 32, and `1 << 31` sets the sign bit, i.e. equals `-2 ^ 31`. -/
def shlOneI32 (k : Nat) : Int :=
  if k % 32 = 31 then -(2 ^ 31) else 2 ^ (k % 32)

/-- Faithful i32 model of the source decoding loop: the comparison
`1 << outcomeIndex < mask` is i32 arithmetic on the truncated mask. The fuel
only bounds observation: `some k` means the while loop has exited with index
`k` within `fuel` iterations, `none` means it is still running — so
∀ fuel, ... = none states that the source loop never terminates. -/
def decodeStepI32 (maskI32 : Int) : Nat → Nat → Option Nat
  | 0, _ => none
  | fuel + 1, outcomeIndex =>
      if shlOneI32 outcomeIndex < maskI32 then
        decodeStepI32 maskI32 fuel (outcomeIndex + 1)
      else some outcomeIndex

/-- The source decoding loop on one raw `BigInt` index-set mask: truncate
with `toI32`, then run the i32 while loop from index 0. -/
def decodeOutcomeIndexI32 (mask : Int) (fuel : Nat) : Option Nat :=
  decodeStepI32 (toI32 mask) fuel 0

/-- Loop body of `updateMarketPositionsFromSplit` acting on one position:
`quantityBought += amount; valueBought += amount.div(totalSlots)`
(the equal-price valuation with truncating `BigInt.div`). -/
def applySplitToPosition (amount : Int) (totalSlots : Nat)
    (position : MarketPosition) : MarketPosition :=
  let position := { position with quantityBought := position.quantityBought + amount }
  let mergeValue := Int.tdiv amount (Int.ofNat totalSlots)
  { position with valueBought := position.valueBought + mergeValue }

/-- Loop body of `updateMarketPositionsFromMerge` acting on one position:
`quantitySold += amount; valueSold += amount.div(totalSlots)`. -/
def applyMergeToPosition (amount : Int) (totalSlots : Nat)
    (position : MarketPosition) : MarketPosition :=
  let position := { position with quantitySold := position.quantitySold + amount }
  let mergeValue := Int.tdiv amount (Int.ofNat totalSlots)
  { position with valueSold := position.valueSold + mergeValue }

/-- `updateMarketPositionsFromSplit`: for every outcome slot of the market
maker, credit `amount` bought and `amount.div(totalSlots)` value bought.
The source loads the market maker with an unchecked cast
(`load(...) as FixedProductMarketMaker`); the handlers only call this with
market makers registered on the condition, so the `none` branch is never
reached on well-formed stores. -/
def updateMarketPositionsFromSplit (marketMakerAddress : String)
    (event : PositionSplitEvent) (store : Store) : Store :=
  let userAddress := event.stakeholder
  match lookupEntity marketMakerAddress store.fpmms with
  | none => store
  | some marketMaker =>
      let totalSlots := marketMaker.outcomeSlotCount
      (List.range totalSlots).foldl
        (fun s outcomeIndex =>
          let position := getMarketPosition userAddress marketMakerAddress
            (Int.ofNat outcomeIndex) s
          updateNetPositionAndSave
            (applySplitToPosition event.amount totalSlots position) s)
        store

/-- `updateMarketPositionsFromMerge`: for every outcome slot of the market
maker, credit `amount` sold and `amount.div(totalSlots)` value sold. -/
def updateMarketPositionsFromMerge (marketMakerAddress : String)
    (event : PositionsMergeEvent) (store : Store) : Store :=
  let userAddress := event.stakeholder
  match lookupEntity marketMakerAddress store.fpmms with
  | none => store
  | some marketMaker =>
      let totalSlots := marketMaker.outcomeSlotCount
      (List.range totalSlots).foldl
        (fun s outcomeIndex =>
          let position := getMarketPosition userAddress marketMakerAddress
            (Int.ofNat outcomeIndex) s
          updateNetPositionAndSave
            (applyMergeToPosition event.amount totalSlots position) s)
        store

/-- `updateMarketPositionsFromRedemption`: for each index-set mask of the
event, decode an outcome index with the shifting loop, then zero the decoded
position: `quantitySold += netQuantity` and
`valueSold += netQuantity * payoutNumerators[outcomeIndex] / payoutDenominator`
(truncating division). The event's `payout` field is never read. The source
loads the condition with an unchecked cast (handlers load it first). The
numerator array access is bounds-checked in AssemblyScript and aborts the
handler out of range; it is collapsed to a zero default here and exercised
only in range by the theorems. `decodeOutcomeIndex` is the in-range
abstraction of the source's i32 loop (see `decodeStepI32_agrees`). -/
def updateMarketPositionsFromRedemption (marketMakerAddress : String)
    (event : PayoutRedemptionEvent) (store : Store) : Store :=
  let userAddress := event.redeemer
  match lookupEntity event.conditionId store.conditions with
  | none => store
  | some condition =>
      match condition.payoutNumerators, condition.payoutDenominator with
      | some payoutNumerators, some payoutDenominator =>
          event.indexSets.foldl
            (fun s indexSet =>
              let outcomeIndex := decodeOutcomeIndex indexSet.toNat
              let position := getMarketPosition userAddress marketMakerAddress
                (Int.ofNat outcomeIndex) s
              let numerator := (payoutNumerators.get? outcomeIndex).getD 0
              let redemptionValue :=
                Int.tdiv (position.netQuantity * numerator) payoutDenominator
              let position :=
                { position with quantitySold := position.quantitySold + position.netQuantity }
              let position :=
                { position with valueSold := position.valueSold + redemptionValue }
              updateNetPositionAndSave position s)
            store
      | _, _ =>
          store.addLog
            ("Failed to update market positions: condition has not resolved: "
              ++ condition.id)

/-- Modelled from the spec: `partitionCheck` lives in
`utils/conditional-utils.ts`, which is not among the provided sources.
Spec section 4.2: a partition is full iff every outcome slot from `0` to
`outcomeSlotCount - 1` is covered by exactly one mask and no mask uses a bit
outside the valid outcome range. -/
def partitionCheck (partition : List Int) (outcomeSlotCount : Nat) : Bool :=
  ((List.range outcomeSlotCount).all
      (fun slot => (partition.filter (fun mask => mask.toNat.testBit slot)).length = 1))
    && partition.all (fun mask => mask.toNat < 2 ^ outcomeSlotCount && mask ≠ 0)

/-- Modelled from the spec: `getEventKey` lives in `utils/getEventKey.ts`,
which is not among the provided sources. Spec section 3: audit rows are keyed
by "a globally unique event key (an ordered-event identity such as
transaction hash + log index)". -/
def getSplitEventKey (event : PositionSplitEvent) : String :=
  event.transactionHash ++ "-" ++ toString event.logIndex

/-- Modelled from the spec: the same event key for merge events. -/
def getMergeEventKey (event : PositionsMergeEvent) : String :=
  event.transactionHash ++ "-" ++ toString event.logIndex

/-- `requireGlobal` from `global-utils.ts`: loads the singleton or creates it
with all counters zero. -/
def requireGlobal (store : Store) : Global :=
  store.global.getD { numConditions := 0, numOpenConditions := 0, numClosedConditions := 0 }

/-- `handlePositionSplit` from the ConditionalTokens mapping. The two leading
filters return before anything is written: splits whose stakeholder is a
tracked market maker, and splits from the NegRiskAdapter or the CTFExchange,
are not tracked at all. (`getCollateralDetails`, `requireAccount` and
`markAccountAsSeen` touch only collateral/account entities, which are not
part of this model.) -/
def handlePositionSplit (event : PositionSplitEvent) (store : Store) : Store :=
  if (lookupEntity event.stakeholder store.fpmms).isSome then store
  else if event.stakeholder = negRiskAdapterAddress
      || event.stakeholder = exchangeAddress then store
  else
    let split : Split :=
      { id := getSplitEventKey event
        timestamp := event.timestamp
        stakeholder := event.stakeholder
        collateralToken := event.collateralToken
        parentCollectionId := event.parentCollectionId
        condition := event.conditionId
        partition := event.partition
        amount := event.amount }
    let store := store.saveSplit split
    match lookupEntity split.condition store.conditions with
    | none =>
        store.addLog
          ("Failed to update market positions: condition not prepared: "
            ++ split.condition)
    | some condition =>
        if partitionCheck split.partition condition.outcomeSlotCount then
          condition.fixedProductMarketMakers.foldl
            (fun s marketMaker => updateMarketPositionsFromSplit marketMaker event s)
            store
        else store

/-- `handlePositionsMerge` from the ConditionalTokens mapping; mirror image of
`handlePositionSplit` with the same two leading filters. -/
def handlePositionsMerge (event : PositionsMergeEvent) (store : Store) : Store :=
  if (lookupEntity event.stakeholder store.fpmms).isSome then store
  else if event.stakeholder = negRiskAdapterAddress
      || event.stakeholder = exchangeAddress then store
  else
    let merge : Merge :=
      { id := getMergeEventKey event
        timestamp := event.timestamp
        stakeholder := event.stakeholder
        collateralToken := event.collateralToken
        parentCollectionId := event.parentCollectionId
        condition := event.conditionId
        partition := event.partition
        amount := event.amount }
    let store := store.saveMerge merge
    match lookupEntity merge.condition store.conditions with
    | none =>
        store.addLog
          ("Failed to update market positions: condition not prepared: "
            ++ merge.condition)
    | some condition =>
        if partitionCheck merge.partition condition.outcomeSlotCount then
          condition.fixedProductMarketMakers.foldl
            (fun s marketMaker => updateMarketPositionsFromMerge marketMaker event s)
            store
        else store

/-- `handleConditionResolution`: soft-fails (log, no mutation) when the
condition is unknown; otherwise moves the global open/closed counters,
computes `payoutDenominator = Σ payoutNumerators` and the decimal payout
fractions `payoutNumerators[i] / payoutDenominator`, and saves the resolved
condition. -/
def handleConditionResolution (event : ConditionResolutionEvent) (store : Store) : Store :=
  match lookupEntity event.conditionId store.conditions with
  | none =>
      store.addLog ("could not find condition to resolve: " ++ event.conditionId)
  | some condition =>
      let global := requireGlobal store
      let global :=
        { global with
            numOpenConditions := global.numOpenConditions - 1
            numClosedConditions := global.numClosedConditions + 1 }
      let store := { store with global := some global }
      let payoutNumerators := event.payoutNumerators
      let payoutDenominator : Int := payoutNumerators.foldl (· + ·) 0
      let payouts :=
        payoutNumerators.map
          (fun numerator => (numerator : Rat) / (payoutDenominator : Rat))
      let condition :=
        { condition with
            resolutionTimestamp := some event.timestamp
            payouts := some payouts
            payoutNumerators := some payoutNumerators
            payoutDenominator := some payoutDenominator
            resolutionHash := some event.transactionHash }
      store.saveCondition condition

/-! Concrete stores and events used by the scenario theorems, the
counterexamples and the witnesses below. -/

/-- A two-outcome condition, not yet resolved, with one tracked market maker. -/
def c3Condition : Condition :=
  { id := "0xcondition", outcomeSlotCount := 2, fixedProductMarketMakers := ["0xmm"]
    payoutNumerators := none, payoutDenominator := none, payouts := none
    resolutionTimestamp := none, resolutionHash := none }

/-- A position on outcome 0 with net quantity 100 (100 bought, 0 sold). -/
def c3Position : MarketPosition :=
  { id := positionId "0xredeemer" "0xmm" 0, market := "0xmm", user := "0xredeemer"
    outcomeIndex := 0, quantityBought := 100, quantitySold := 0, netQuantity := 100
    valueBought := 80, valueSold := 0, netValue := 80 }

def c3Store : Store :=
  { emptyStore with
      conditions := [("0xcondition", c3Condition)]
      fpmms := [("0xmm", { id := "0xmm", outcomeSlotCount := 2 })]
      marketPositions := [(c3Position.id, c3Position)] }

/-- Resolution of the condition with payout numerators `[3, 1]`. -/
def c3ResolutionEvent : ConditionResolutionEvent :=
  { conditionId := "0xcondition", payoutNumerators := [3, 1]
    timestamp := 1000, transactionHash := "0xhashres" }

def c3Resolved : Store := handleConditionResolution c3ResolutionEvent c3Store

/-- Redemption of outcome 0 (index set `1 = 0b01`); the event-reported
`payout` is deliberately an unrelated number. -/
def c3RedemptionEvent : PayoutRedemptionEvent :=
  { redeemer := "0xredeemer", collateralToken := "0xusdc", parentCollectionId := "0x00"
    conditionId := "0xcondition", indexSets := [1], payout := 12345
    timestamp := 1001, transactionHash := "0xhashredeem", logIndex := 7 }

def c3After : Store :=
  updateMarketPositionsFromRedemption "0xmm" c3RedemptionEvent c3Resolved

/-- A resolved three-outcome condition paying outcome 2 everything. -/
def c9Condition : Condition :=
  { id := "0xcondition9", outcomeSlotCount := 3, fixedProductMarketMakers := ["0xm9"]
    payoutNumerators := some [0, 0, 1], payoutDenominator := some 1
    payouts := some [0, 0, 1], resolutionTimestamp := some 900
    resolutionHash := some "0xhash9" }

/-- A position of 50 net on outcome 2. -/
def c9Position : MarketPosition :=
  { id := positionId "0xr9" "0xm9" 2, market := "0xm9", user := "0xr9"
    outcomeIndex := 2, quantityBought := 50, quantitySold := 0, netQuantity := 50
    valueBought := 10, valueSold := 0, netValue := 10 }

def c9Store : Store :=
  { emptyStore with
      conditions := [("0xcondition9", c9Condition)]
      fpmms := [("0xm9", { id := "0xm9", outcomeSlotCount := 3 })]
      marketPositions := [(c9Position.id, c9Position)] }

/-- A redemption whose only index set is the multi-bit mask `3 = 0b011`
(outcomes 0 and 1). -/
def c9RedemptionEvent : PayoutRedemptionEvent :=
  { redeemer := "0xr9", collateralToken := "0xusdc", parentCollectionId := "0x00"
    conditionId := "0xcondition9", indexSets := [3], payout := 50
    timestamp := 901, transactionHash := "0xhashr9", logIndex := 3 }

def c9After : Store :=
  updateMarketPositionsFromRedemption "0xm9" c9RedemptionEvent c9Store

/-- A store that tracks a market maker under the address `"0xmm4"`. -/
def c4Store : Store :=
  { emptyStore with fpmms := [("0xmm4", { id := "0xmm4", outcomeSlotCount := 2 })] }

/-- A split whose stakeholder is the tracked market maker itself. -/
def c4SplitEvent : PositionSplitEvent :=
  { stakeholder := "0xmm4", collateralToken := "0xusdc", parentCollectionId := "0x00"
    conditionId := "0xcondition4", partition := [1, 2], amount := 10
    timestamp := 400, transactionHash := "0xhash4", logIndex := 1 }

/-- A merge whose stakeholder is the tracked market maker itself. -/
def c4MergeEvent : PositionsMergeEvent :=
  { stakeholder := "0xmm4", collateralToken := "0xusdc", parentCollectionId := "0x00"
    conditionId := "0xcondition4", partition := [1, 2], amount := 10
    timestamp := 401, transactionHash := "0xhash4", logIndex := 2 }

/-- A prepared two-outcome condition with one tracked market maker `"0xm5"`. -/
def c5Condition : Condition :=
  { id := "0xcondition5", outcomeSlotCount := 2, fixedProductMarketMakers := ["0xm5"]
    payoutNumerators := none, payoutDenominator := none, payouts := none
    resolutionTimestamp := none, resolutionHash := none }

def c5Store : Store :=
  { emptyStore with
      conditions := [("0xcondition5", c5Condition)]
      fpmms := [("0xm5", { id := "0xm5", outcomeSlotCount := 2 })] }

/-- A full-partition split of `amount` collateral by an ordinary user. -/
def c5SplitEvent (amount : Int) : PositionSplitEvent :=
  { stakeholder := "0xalice", collateralToken := "0xusdc", parentCollectionId := "0x00"
    conditionId := "0xcondition5", partition := [1, 2], amount := amount
    timestamp := 500, transactionHash := "0xhash5", logIndex := 4 }

/-- The store after applying the split event once. -/
def c5Once (amount : Int) : Store := handlePositionSplit (c5SplitEvent amount) c5Store

/-- The store after applying the identical split event a second time. -/
def c5Twice (amount : Int) : Store :=
  handlePositionSplit (c5SplitEvent amount) (c5Once amount)

/-- A position that has sold more than it bought. -/
def c6Position : MarketPosition :=
  { id := positionId "0xcarol" "0xm6" 1, market := "0xm6", user := "0xcarol"
    outcomeIndex := 1, quantityBought := 5, quantitySold := 9, netQuantity := 0
    valueBought := 5, valueSold := 9, netValue := 0 }

/-- The existing record stored under the colliding key `"abc1"`. -/
def c10Position : MarketPosition :=
  { id := "abc1", market := "bc", user := "a", outcomeIndex := 1
    quantityBought := 7, quantitySold := 2, netQuantity := 5
    valueBought := 7, valueSold := 2, netValue := 5 }

def c10Store : Store :=
  { emptyStore with marketPositions := [("abc1", c10Position)] }

/-! Helper lemmas about the redemption decoding loop. -/

/-- If the fuel budget reaches an exponent bounding `mask`, the loop stops at
an index whose power of two bounds `mask` (the while-condition is false on
exit). -/
theorem decodeStep_le (mask : Nat) :
    ∀ (fuel outcomeIndex : Nat), mask ≤ 2 ^ (outcomeIndex + fuel) →
      mask ≤ 2 ^ decodeStep mask fuel outcomeIndex := by
  intro fuel
  induction fuel with
  | zero => intro outcomeIndex h; simpa [decodeStep] using h
  | succ fuel ih =>
      intro outcomeIndex h
      simp only [decodeStep]
      split
      · exact ih (outcomeIndex + 1)
          (by rw [show outcomeIndex + 1 + fuel = outcomeIndex + (fuel + 1) from by omega]
              exact h)
      · rename_i hcond
        omega

/-- On exit the loop index is either still the start index or the
while-condition held one step earlier: the exit index is minimal. -/
theorem decodeStep_min (mask : Nat) :
    ∀ (fuel outcomeIndex : Nat),
      decodeStep mask fuel outcomeIndex = outcomeIndex
        ∨ 2 ^ (decodeStep mask fuel outcomeIndex - 1) < mask := by
  intro fuel
  induction fuel with
  | zero => intro outcomeIndex; left; simp [decodeStep]
  | succ fuel ih =>
      intro outcomeIndex
      simp only [decodeStep]
      split
      · rename_i hcond
        rcases ih (outcomeIndex + 1) with h1 | h1
        · right; rw [h1]; simpa using hcond
        · right; exact h1
      · left; rfl

/-- The decoded index satisfies `mask ≤ 2 ^ index`. -/
theorem decodeOutcomeIndex_le (mask : Nat) : mask ≤ 2 ^ decodeOutcomeIndex mask :=
  decodeStep_le mask mask 0 (by simpa using Nat.le_of_lt (Nat.lt_two_pow mask))

/-- The decoded index is minimal with that property. -/
theorem decodeOutcomeIndex_min (mask : Nat) :
    decodeOutcomeIndex mask = 0 ∨ 2 ^ (decodeOutcomeIndex mask - 1) < mask :=
  decodeStep_min mask mask 0

/-- The idealized loop maps a single-bit mask `2 ^ k` to `k`. -/
theorem decodeOutcomeIndex_pow (k : Nat) : decodeOutcomeIndex (2 ^ k) = k := by
  have h1 := decodeOutcomeIndex_le (2 ^ k)
  have h2 := decodeOutcomeIndex_min (2 ^ k)
  rcases Nat.lt_trichotomy (decodeOutcomeIndex (2 ^ k)) k with hlt | heq | hgt
  · have : (2 : Nat) ^ decodeOutcomeIndex (2 ^ k) < 2 ^ k :=
      Nat.pow_lt_pow_right (by norm_num) hlt
    omega
  · exact heq
  · rcases h2 with h2 | h2
    · omega
    · have : (2 : Nat) ^ k ≤ 2 ^ (decodeOutcomeIndex (2 ^ k) - 1) :=
        Nat.pow_le_pow_right (by norm_num) (by omega)
      omega

/-- `toI32` is the identity on values that already fit in a non-negative
i32. -/
theorem toI32_eq_of_lt (value : Int) (h0 : 0 ≤ value) (h1 : value < 2 ^ 31) :
    toI32 value = value := by
  have hmod : value % (2 ^ 32 : Int) = value := Int.emod_eq_of_lt h0 (by omega)
  simp only [toI32]
  rw [hmod, if_pos h1]

/-- Below the wrap point the i32 shift is the plain power of two. -/
theorem shlOneI32_of_le (k : Nat) (h : k ≤ 30) :
    shlOneI32 k = ((2 ^ k : Nat) : Int) := by
  have hk : k % 32 = k := Nat.mod_eq_of_lt (by omega)
  rw [shlOneI32, hk, if_neg (by omega : ¬ k = 31)]
  norm_cast

/-- There is at most one index that is a least upper power for `n`. -/
theorem least_pow_index_unique {n j j' : Nat} (hj : n ≤ 2 ^ j)
    (hj0 : j = 0 ∨ 2 ^ (j - 1) < n) (hj' : n ≤ 2 ^ j')
    (hj'0 : j' = 0 ∨ 2 ^ (j' - 1) < n) : j = j' := by
  rcases Nat.lt_trichotomy j j' with h | h | h
  · exfalso
    rcases hj'0 with h0 | h0
    · omega
    · have : (2 : Nat) ^ j ≤ 2 ^ (j' - 1) := Nat.pow_le_pow_right (by norm_num) (by omega)
      omega
  · exact h
  · exfalso
    rcases hj0 with h0 | h0
    · omega
    · have : (2 : Nat) ^ j' ≤ 2 ^ (j - 1) := Nat.pow_le_pow_right (by norm_num) (by omega)
      omega

/-- For masks `≤ 2 ^ 30` the i32 loop never reaches the wrap point: it exits
within the fuel budget at a least-upper-power index. -/
theorem decodeStepI32_spec (n : Nat) (hn : n ≤ 2 ^ 30) :
    ∀ (fuel outcomeIndex : Nat), outcomeIndex ≤ 30 → 31 ≤ outcomeIndex + fuel →
      ∃ k, decodeStepI32 (n : Int) fuel outcomeIndex = some k
        ∧ n ≤ 2 ^ k ∧ (k = outcomeIndex ∨ 2 ^ (k - 1) < n) ∧ outcomeIndex ≤ k := by
  intro fuel
  induction fuel with
  | zero => intro outcomeIndex h30 hf; omega
  | succ fuel ih =>
      intro outcomeIndex h30 hf
      by_cases hcond : shlOneI32 outcomeIndex < (n : Int)
      · have hlt : 2 ^ outcomeIndex < n := by
          rw [shlOneI32_of_le outcomeIndex h30] at hcond
          exact_mod_cast hcond
        have h29 : outcomeIndex < 30 := by
          rcases Nat.lt_or_ge outcomeIndex 30 with h | h
          · exact h
          · exfalso
            have h30eq : outcomeIndex = 30 := by omega
            rw [h30eq] at hlt
            omega
        obtain ⟨k, hk, hle, hmin, hik⟩ := ih (outcomeIndex + 1) (by omega) (by omega)
        refine ⟨k, ?_, hle, ?_, by omega⟩
        · simp only [decodeStepI32, if_pos hcond]
          exact hk
        · right
          rcases hmin with h | h
          · rw [h]
            simpa using hlt
          · exact h
      · refine ⟨outcomeIndex, ?_, ?_, Or.inl rfl, Nat.le_refl _⟩
        · simp only [decodeStepI32, if_neg hcond]
        · rw [shlOneI32_of_le outcomeIndex h30] at hcond
          exact_mod_cast not_lt.mp hcond

/-- In the safe range `1 ≤ mask ≤ 2 ^ 30`, the faithful i32 loop and the
idealized loop agree (with any fuel of at least 31 iterations). -/
theorem decodeStepI32_agrees (mask : Int) (h1 : 1 ≤ mask) (h2 : mask ≤ 2 ^ 30)
    (fuel : Nat) (hf : 31 ≤ fuel) :
    decodeOutcomeIndexI32 mask fuel = some (decodeOutcomeIndex mask.toNat) := by
  have h0 : (0 : Int) ≤ mask := by omega
  have h31 : mask < 2 ^ 31 := by
    have : (2 : Int) ^ 30 < 2 ^ 31 := by norm_num
    omega
  have hcast : ((mask.toNat : Nat) : Int) = mask := Int.toNat_of_nonneg h0
  have hn : mask.toNat ≤ 2 ^ 30 := Int.toNat_le.mpr (by exact_mod_cast h2)
  have hspec := decodeStepI32_spec mask.toNat hn fuel 0 (by omega) (by omega)
  rw [hcast] at hspec
  obtain ⟨k, hk, hle, hmin, _⟩ := hspec
  rw [decodeOutcomeIndexI32, toI32_eq_of_lt mask h0 h31, hk]
  exact congrArg some
    (least_pow_index_unique hle hmin (decodeOutcomeIndex_le mask.toNat)
      (decodeOutcomeIndex_min mask.toNat))

/-- At mask `2 ^ 30 + 1` the i32 while-condition holds at every index (the
shift stays `≤ 2 ^ 30` or wraps negative), so the source loop never exits. -/
theorem decodeStepI32_diverges :
    ∀ (fuel outcomeIndex : Nat),
      decodeStepI32 ((2 : Int) ^ 30 + 1) fuel outcomeIndex = none := by
  intro fuel
  induction fuel with
  | zero => intro outcomeIndex; rfl
  | succ fuel ih =>
      intro outcomeIndex
      have hcond : shlOneI32 outcomeIndex < (2 : Int) ^ 30 + 1 := by
        unfold shlOneI32
        split
        · norm_num
        · rename_i hne
          have hm : outcomeIndex % 32 ≤ 30 := by
            have := Nat.mod_lt outcomeIndex (y := 32) (by norm_num)
            omega
          have : (2 : Int) ^ (outcomeIndex % 32) ≤ 2 ^ 30 :=
            pow_le_pow_right₀ (by norm_num) hm
          omega
      simp only [decodeStepI32, if_pos hcond]
      exact ih (outcomeIndex + 1)

/-- C8 counterexample: the protocol-valid single-bit mask `2 ^ 31` truncates
to the negative i32 `-2 ^ 31`, the while-condition is false immediately, and
the source loop decodes outcome index 0, not 31. -/
theorem c8_counterexample_mask_two_pow_31_decodes_to_zero :
    decodeOutcomeIndexI32 ((2 : Int) ^ 31) 31 = some 0
    ∧ toI32 ((2 : Int) ^ 31) = -(2 ^ 31)
    ∧ (0 : Nat) ≠ 31 := by
  decide

/-- C8 amended: for every single-bit mask `2 ^ k` with `k ≤ 30` — the range
in which `toI32` and the i32 shift are faithful to the bit position — the
source decoding loop yields outcome index `k` (for any fuel of at least 31
iterations); mask `4` decodes to index `2`, and the index-set list
`[1, 2, 4]` decodes element-wise to `[0, 1, 2]`. -/
theorem c8_single_bit_mask_decodes_in_i32_range :
    (∀ (k fuel : Nat), k ≤ 30 → 31 ≤ fuel →
        decodeOutcomeIndexI32 ((2 : Int) ^ k) fuel = some k)
    ∧ decodeOutcomeIndexI32 4 31 = some 2
    ∧ [1, 2, 4].map (fun mask => decodeOutcomeIndexI32 mask 31)
        = [some 0, some 1, some 2] := by
  refine ⟨?_, by decide, by decide⟩
  intro k fuel hk hf
  have hpos : (0 : Int) < 2 ^ k := pow_pos (by norm_num) k
  have hle : (2 : Int) ^ k ≤ 2 ^ 30 := pow_le_pow_right₀ (by norm_num) hk
  rw [decodeStepI32_agrees ((2 : Int) ^ k) (by omega) hle fuel hf]
  have htoNat : ((2 : Int) ^ k).toNat = 2 ^ k := by
    rw [show ((2 : Int) ^ k) = ((2 ^ k : Nat) : Int) by norm_cast]
    exact Int.toNat_natCast (2 ^ k)
  rw [htoNat, decodeOutcomeIndex_pow]

/-- Witness for the amended C8 at the largest faithful bit position. -/
theorem c8_witness :
    (30 ≤ 30 ∧ 31 ≤ 31)
    ∧ decodeOutcomeIndexI32 ((2 : Int) ^ 30) 31 = some 30 :=
  ⟨⟨by decide, by decide⟩,
    c8_single_bit_mask_decodes_in_i32_range.1 30 31 (by decide) (by decide)⟩

/-- C9 counterexample: the multi-bit mask `2 ^ 32 + 8` (bits 3 and 32, not a
power of two) is truncated by `toI32` to its low 32 bits, `8`, so the source
loop terminates at index 3 — which is not a least upper power for the mask
(`2 ^ 3` is far below it), refuting the claimed decode for every mask. -/
theorem c9_counterexample_wrapped_mask_decodes_low_bits :
    decodeOutcomeIndexI32 ((2 : Int) ^ 32 + 8) 40 = some 3
    ∧ toI32 ((2 : Int) ^ 32 + 8) = 8
    ∧ ¬((2 : Int) ^ 32 + 8 ≤ 2 ^ 3) := by
  decide

/-- C9 amended: for masks `1 ≤ m ≤ 2 ^ 30` the source loop terminates and
returns the smallest `k` with `2 ^ k ≥ m`, applied to the whole mask rather
than per set bit — mask `3` yields index `2`, whose bit is not even set, and
a redemption with index set `[3]` on a three-outcome condition applies the
entire redemption to the outcome-2 position, leaving outcomes 0 and 1
untouched. Out of that range the source diverges from this rule: at
`2 ^ 30 + 1` the wrapped i32 shift keeps the while-condition true at every
index, so the loop never exits (`none` for every fuel); and a decoded index
can escape the payout-numerator array (mask `5` decodes to index 3, out of
range for a three-outcome condition), where the source's bounds-checked
access aborts the handler instead of applying the redemption. -/
theorem c9_decode_least_upper_power_in_i32_range :
    (∀ (mask : Int) (fuel : Nat), 1 ≤ mask → mask ≤ 2 ^ 30 → 31 ≤ fuel →
        decodeOutcomeIndexI32 mask fuel = some (decodeOutcomeIndex mask.toNat)
        ∧ mask.toNat ≤ 2 ^ decodeOutcomeIndex mask.toNat
        ∧ (decodeOutcomeIndex mask.toNat = 0
            ∨ 2 ^ (decodeOutcomeIndex mask.toNat - 1) < mask.toNat))
    ∧ (∀ fuel : Nat, decodeOutcomeIndexI32 ((2 : Int) ^ 30 + 1) fuel = none)
    ∧ decodeOutcomeIndexI32 3 31 = some 2
    ∧ decodeOutcomeIndex 3 = 2
    ∧ Nat.testBit 3 2 = false
    ∧ (decodeOutcomeIndexI32 5 31 = some 3 ∧ [(0 : Int), 0, 1].get? 3 = none)
    ∧ (lookupEntity (positionId "0xr9" "0xm9" 2) c9After.marketPositions).map
        (fun p => (p.quantitySold, p.valueSold, p.netQuantity)) = some (50, 50, 0)
    ∧ lookupEntity (positionId "0xr9" "0xm9" 0) c9After.marketPositions = none
    ∧ lookupEntity (positionId "0xr9" "0xm9" 1) c9After.marketPositions = none := by
  refine ⟨?_, ?_, by decide, by decide, by decide, ⟨by decide, by decide⟩,
    by decide, by decide, by decide⟩
  · intro mask fuel h1 h2 hf
    exact ⟨decodeStepI32_agrees mask h1 h2 fuel hf,
      decodeOutcomeIndex_le mask.toNat, decodeOutcomeIndex_min mask.toNat⟩
  · intro fuel
    rw [decodeOutcomeIndexI32,
      toI32_eq_of_lt ((2 : Int) ^ 30 + 1) (by norm_num) (by norm_num)]
    exact decodeStepI32_diverges fuel 0

/-- Witness for the amended C9 at the in-range mask 6. -/
theorem c9_witness :
    ((1 : Int) ≤ 6 ∧ (6 : Int) ≤ 2 ^ 30 ∧ 31 ≤ 31)
    ∧ (decodeOutcomeIndexI32 6 31 = some (decodeOutcomeIndex (Int.toNat 6))
        ∧ Int.toNat 6 ≤ 2 ^ decodeOutcomeIndex (Int.toNat 6)
        ∧ (decodeOutcomeIndex (Int.toNat 6) = 0
            ∨ 2 ^ (decodeOutcomeIndex (Int.toNat 6) - 1) < Int.toNat 6)) :=
  ⟨⟨by decide, by decide, by decide⟩,
    c9_decode_least_upper_power_in_i32_range.1 6 31 (by decide) (by decide) (by decide)⟩

/-- C3: resolving the known two-outcome condition with payout numerators
`[3, 1]` stores denominator `4` and payout fractions `[0.75, 0.25]`; the
subsequent redemption of a position with net quantity 100 on outcome 0 adds
75 to `valueSold` (`100 * 3 / 4` truncating), adds 100 to `quantitySold`,
and leaves net quantity 0. -/
theorem c3_resolution_payout_and_redemption_scenario :
    ((lookupEntity "0xcondition" c3Resolved.conditions).map
        fun c => c.payoutDenominator) = some (some 4)
    ∧ ((lookupEntity "0xcondition" c3Resolved.conditions).map
        fun c => c.payouts) = some (some [(3 : Rat)/4, (1 : Rat)/4])
    ∧ ((lookupEntity (positionId "0xredeemer" "0xmm" 0) c3After.marketPositions).map
        fun p => (p.quantitySold, p.valueSold, p.netQuantity)) = some (100, 75, 0) := by
  refine ⟨by decide, ?_, by decide⟩
  norm_num [c3Resolved, handleConditionResolution, c3Store, c3Condition,
    c3ResolutionEvent, lookupEntity, Store.saveCondition, Store.addLog,
    requireGlobal, emptyStore]

/-- C6: whenever a position update leaves `quantitySold > quantityBought`,
`updateNetPositionAndSave` emits the invariant-violation report (whose text
carries the user, the outcome index and the market), still commits the write
with the negative net quantity, and — being a total function into `Store` —
cannot throw. -/
theorem c6_negative_net_reported_and_committed (position : MarketPosition)
    (store : Store) (h : position.quantityBought < position.quantitySold) :
    (updateNetPositionAndSave position store).logs
        = invariantViolationMessage (recomputeNets position) :: store.logs
    ∧ lookupEntity position.id (updateNetPositionAndSave position store).marketPositions
        = some (recomputeNets position)
    ∧ (recomputeNets position).netQuantity < 0 := by
  have hneg : (recomputeNets position).netQuantity < 0 := by
    simp only [recomputeNets]
    omega
  refine ⟨?_, ?_, hneg⟩ <;>
  · simp only [updateNetPositionAndSave, if_pos hneg, Store.savePosition, Store.addLog]
    try simp [lookupEntity, recomputeNets]

/-- Witness for C6 at a concrete position that sold more than it bought. -/
theorem c6_witness :
    c6Position.quantityBought < c6Position.quantitySold
    ∧ ((updateNetPositionAndSave c6Position emptyStore).logs
          = invariantViolationMessage (recomputeNets c6Position) :: emptyStore.logs
        ∧ lookupEntity c6Position.id
            (updateNetPositionAndSave c6Position emptyStore).marketPositions
          = some (recomputeNets c6Position)
        ∧ (recomputeNets c6Position).netQuantity < 0) :=
  ⟨by decide, c6_negative_net_reported_and_committed c6Position emptyStore (by decide)⟩

/-- C7: a trade whose originating `Transaction` record cannot be found aborts
the handler with a thrown error (`Except.error`, no store returned, so no
mutation), while a resolution event for an unknown condition soft-fails: the
store is unchanged except for one error log entry. -/
theorem c7_missing_transaction_fatal_missing_condition_soft :
    (∀ (event : TradeEvent) (store : Store),
        lookupEntity event.transactionHash store.transactions = none →
        updateMarketPositionFromTrade event store
          = Except.error "Could not find transaction with hash")
    ∧ (∀ (event : ConditionResolutionEvent) (store : Store),
        lookupEntity event.conditionId store.conditions = none →
        handleConditionResolution event store
          = store.addLog ("could not find condition to resolve: " ++ event.conditionId)) := by
  constructor
  · intro event store h
    simp only [updateMarketPositionFromTrade, h]
  · intro event store h
    simp only [handleConditionResolution, h]

/-- Witness for C7 on an empty store. -/
theorem c7_witness :
    updateMarketPositionFromTrade { transactionHash := "0xtx" } emptyStore
      = Except.error "Could not find transaction with hash"
    ∧ handleConditionResolution
        { conditionId := "0xnone", payoutNumerators := [1], timestamp := 0
          transactionHash := "0xh" } emptyStore
      = emptyStore.addLog ("could not find condition to resolve: " ++ "0xnone") :=
  ⟨c7_missing_transaction_fatal_missing_condition_soft.1 _ _ rfl,
    c7_missing_transaction_fatal_missing_condition_soft.2 _ _ rfl⟩

/-- C10: the `MarketPosition` key `user ++ market ++ outcomeIndex.toString()`
is not injective: the distinct triples `("a", "bc", 1)` and `("ab", "c", 1)`
share the key `"abc1"`, so `getMarketPosition` returns the same stored record
for both. -/
theorem c10_position_key_not_injective :
    positionId "a" "bc" 1 = positionId "ab" "c" 1
    ∧ ("a", "bc") ≠ ("ab", "c")
    ∧ ∀ (store : Store) (position : MarketPosition),
        lookupEntity (positionId "a" "bc" 1) store.marketPositions = some position →
        getMarketPosition "a" "bc" 1 store = position
        ∧ getMarketPosition "ab" "c" 1 store = position := by
  have hkey : positionId "ab" "c" 1 = positionId "a" "bc" 1 := by decide
  refine ⟨by decide, by decide, ?_⟩
  intro store position h
  constructor
  · simp only [getMarketPosition, h]
  · simp only [getMarketPosition, hkey, h]

/-- Witness for C10: a store holding a record under the shared key `"abc1"`. -/
theorem c10_witness :
    lookupEntity (positionId "a" "bc" 1) c10Store.marketPositions = some c10Position
    ∧ (getMarketPosition "a" "bc" 1 c10Store = c10Position
        ∧ getMarketPosition "ab" "c" 1 c10Store = c10Position) :=
  ⟨by decide, c10_position_key_not_injective.2.2 c10Store c10Position (by decide)⟩

/-! Helper lemmas: how `updateNetPositionAndSave` acts on each store
component (the conditional error log never touches the entity tables). -/

theorem updateNetPositionAndSave_conditions (position : MarketPosition) (store : Store) :
    (updateNetPositionAndSave position store).conditions = store.conditions := by
  simp only [updateNetPositionAndSave, Store.savePosition, Store.addLog]
  split <;> rfl

theorem updateNetPositionAndSave_fpmms (position : MarketPosition) (store : Store) :
    (updateNetPositionAndSave position store).fpmms = store.fpmms := by
  simp only [updateNetPositionAndSave, Store.savePosition, Store.addLog]
  split <;> rfl

/-- C2: splitting amount `A` over `N ≥ 1` outcomes and then merging the same
amount returns an initially all-zero position to net quantity 0 and net value
0: the split adds `A` to `quantityBought` and the truncating quotient
`A.div(N)` to `valueBought`, and the merge adds the same two numbers to
`quantitySold`/`valueSold`. (`applySplitToPosition`/`applyMergeToPosition`
are the per-position loop bodies of `updateMarketPositionsFromSplit` and
`updateMarketPositionsFromMerge`, and `recomputeNets` is the derived-field
update every save performs.) -/
theorem c2_split_then_merge_returns_to_zero (amount : Int) (totalSlots : Nat)
    (h : 1 ≤ totalSlots) (user market : String) (outcomeIndex : Int) :
    (recomputeNets (applyMergeToPosition amount totalSlots
        (recomputeNets (applySplitToPosition amount totalSlots
          (getMarketPosition user market outcomeIndex emptyStore))))).netQuantity = 0
    ∧ (recomputeNets (applyMergeToPosition amount totalSlots
        (recomputeNets (applySplitToPosition amount totalSlots
          (getMarketPosition user market outcomeIndex emptyStore))))).netValue = 0
    ∧ (recomputeNets (applyMergeToPosition amount totalSlots
        (recomputeNets (applySplitToPosition amount totalSlots
          (getMarketPosition user market outcomeIndex emptyStore))))).quantityBought = amount
    ∧ (recomputeNets (applyMergeToPosition amount totalSlots
        (recomputeNets (applySplitToPosition amount totalSlots
          (getMarketPosition user market outcomeIndex emptyStore))))).quantitySold = amount
    ∧ (recomputeNets (applyMergeToPosition amount totalSlots
        (recomputeNets (applySplitToPosition amount totalSlots
          (getMarketPosition user market outcomeIndex emptyStore))))).valueBought
        = Int.tdiv amount (Int.ofNat totalSlots)
    ∧ (recomputeNets (applyMergeToPosition amount totalSlots
        (recomputeNets (applySplitToPosition amount totalSlots
          (getMarketPosition user market outcomeIndex emptyStore))))).valueSold
        = Int.tdiv amount (Int.ofNat totalSlots) := by
  simp [getMarketPosition, lookupEntity, emptyStore, applySplitToPosition,
    applyMergeToPosition, recomputeNets]

/-- Witness for C2 with amount 7 over 2 outcomes. -/
theorem c2_witness :
    1 ≤ 2
    ∧ ((recomputeNets (applyMergeToPosition 7 2
          (recomputeNets (applySplitToPosition 7 2
            (getMarketPosition "u" "m" 0 emptyStore))))).netQuantity = 0
        ∧ (recomputeNets (applyMergeToPosition 7 2
            (recomputeNets (applySplitToPosition 7 2
              (getMarketPosition "u" "m" 0 emptyStore))))).netValue = 0
        ∧ (recomputeNets (applyMergeToPosition 7 2
            (recomputeNets (applySplitToPosition 7 2
              (getMarketPosition "u" "m" 0 emptyStore))))).quantityBought = 7
        ∧ (recomputeNets (applyMergeToPosition 7 2
            (recomputeNets (applySplitToPosition 7 2
              (getMarketPosition "u" "m" 0 emptyStore))))).quantitySold = 7
        ∧ (recomputeNets (applyMergeToPosition 7 2
            (recomputeNets (applySplitToPosition 7 2
              (getMarketPosition "u" "m" 0 emptyStore))))).valueBought
            = Int.tdiv 7 (Int.ofNat 2)
        ∧ (recomputeNets (applyMergeToPosition 7 2
            (recomputeNets (applySplitToPosition 7 2
              (getMarketPosition "u" "m" 0 emptyStore))))).valueSold
            = Int.tdiv 7 (Int.ofNat 2)) :=
  ⟨by decide, c2_split_then_merge_returns_to_zero 7 2 (by decide) "u" "m" 0⟩

/-! Helper lemmas: `Store` projections commute with `if` (used to reason past
the sign-dependent error log inside `updateNetPositionAndSave`). -/

theorem ite_marketPositions (c : Prop) [inst : Decidable c] (s t : Store) :
    (if c then s else t).marketPositions
      = if c then s.marketPositions else t.marketPositions := by
  split <;> rfl

theorem ite_conditions (c : Prop) [inst : Decidable c] (s t : Store) :
    (if c then s else t).conditions = if c then s.conditions else t.conditions := by
  split <;> rfl

theorem ite_fpmms (c : Prop) [inst : Decidable c] (s t : Store) :
    (if c then s else t).fpmms = if c then s.fpmms else t.fpmms := by
  split <;> rfl

/-- C4 counterexample: for a `PositionSplit`/`PositionsMerge` event whose
stakeholder is a tracked market maker, the handler does NOT record an audit
row — it returns before `split.save()`/`merge.save()`, leaving the store
completely unchanged (no `Split`/`Merge` entity, and also no position
change), contradicting the claim that an audit row is saved. -/
theorem c4_counterexample_filtered_split_saves_no_audit_row :
    (handlePositionSplit c4SplitEvent c4Store).splits = []
    ∧ (handlePositionsMerge c4MergeEvent c4Store).merges = []
    ∧ handlePositionSplit c4SplitEvent c4Store = c4Store
    ∧ handlePositionsMerge c4MergeEvent c4Store = c4Store := by
  decide

/-- C4 amended: events whose stakeholder is a tracked market maker or one of
the designated wrapper/router contract addresses are skipped entirely: the
handler performs no mutation at all — in particular no `MarketPosition`
changes, but also no audit row is written. -/
theorem c4_filtered_events_are_skipped_entirely
    (store : Store) (splitEvent : PositionSplitEvent) (mergeEvent : PositionsMergeEvent)
    (hsplit : (lookupEntity splitEvent.stakeholder store.fpmms).isSome = true
        ∨ splitEvent.stakeholder = negRiskAdapterAddress
        ∨ splitEvent.stakeholder = exchangeAddress)
    (hmerge : (lookupEntity mergeEvent.stakeholder store.fpmms).isSome = true
        ∨ mergeEvent.stakeholder = negRiskAdapterAddress
        ∨ mergeEvent.stakeholder = exchangeAddress) :
    handlePositionSplit splitEvent store = store
    ∧ handlePositionsMerge mergeEvent store = store := by
  constructor
  · rcases hsplit with h | h | h
    · simp [handlePositionSplit, h]
    · by_cases hs : (lookupEntity splitEvent.stakeholder store.fpmms).isSome = true
      · simp [handlePositionSplit, hs]
      · simp [handlePositionSplit, hs, h]
    · by_cases hs : (lookupEntity splitEvent.stakeholder store.fpmms).isSome = true
      · simp [handlePositionSplit, hs]
      · simp [handlePositionSplit, hs, h]
  · rcases hmerge with h | h | h
    · simp [handlePositionsMerge, h]
    · by_cases hs : (lookupEntity mergeEvent.stakeholder store.fpmms).isSome = true
      · simp [handlePositionsMerge, hs]
      · simp [handlePositionsMerge, hs, h]
    · by_cases hs : (lookupEntity mergeEvent.stakeholder store.fpmms).isSome = true
      · simp [handlePositionsMerge, hs]
      · simp [handlePositionsMerge, hs, h]

/-- Witness for the amended C4 at the concrete market-maker stakeholder. -/
theorem c4_witness :
    ((lookupEntity c4SplitEvent.stakeholder c4Store.fpmms).isSome = true
        ∨ c4SplitEvent.stakeholder = negRiskAdapterAddress
        ∨ c4SplitEvent.stakeholder = exchangeAddress)
    ∧ ((lookupEntity c4MergeEvent.stakeholder c4Store.fpmms).isSome = true
        ∨ c4MergeEvent.stakeholder = negRiskAdapterAddress
        ∨ c4MergeEvent.stakeholder = exchangeAddress)
    ∧ (handlePositionSplit c4SplitEvent c4Store = c4Store
        ∧ handlePositionsMerge c4MergeEvent c4Store = c4Store) :=
  ⟨Or.inl (by decide), Or.inl (by decide),
    c4_filtered_events_are_skipped_entirely c4Store c4SplitEvent c4MergeEvent
      (Or.inl (by decide)) (Or.inl (by decide))⟩

/-- C5 counterexample: applying the identical `PositionSplit` event twice
(same event key) doubles `quantityBought` on the affected position — 100
after the first application, 200 (not 100) after the duplicate. -/
theorem c5_counterexample_duplicate_split_doubles_quantity_bought :
    ((lookupEntity (positionId "0xalice" "0xm5" 0) (c5Once 100).marketPositions).map
        (fun p => p.quantityBought)) = some 100
    ∧ ((lookupEntity (positionId "0xalice" "0xm5" 0) (c5Twice 100).marketPositions).map
        (fun p => p.quantityBought)) = some 200
    ∧ (200 : Int) ≠ 100 := by
  decide

/-- C5 amended: the handlers contain no dedup check, so replaying the
identical split event adds `amount` to `quantityBought` again: for every
amount, the position holds `amount` after one application and
`amount + amount` after the duplicate application. -/
theorem c5_duplicate_split_adds_amount_again (amount : Int) :
    ((lookupEntity (positionId "0xalice" "0xm5" 0) (c5Once amount).marketPositions).map
        (fun p => p.quantityBought)) = some amount
    ∧ ((lookupEntity (positionId "0xalice" "0xm5" 0) (c5Twice amount).marketPositions).map
        (fun p => p.quantityBought)) = some (amount + amount) := by
  have hrange : List.range 2 = [0, 1] := by decide
  have hpc : partitionCheck [1, 2] 2 = true := by decide
  have h0 : positionId "0xalice" "0xm5" 0 = "0xalice0xm50" := by decide
  have h1 : positionId "0xalice" "0xm5" 1 = "0xalice0xm51" := by decide
  have hmp : (c5Once amount).marketPositions
      = [("0xalice0xm51",
            { id := "0xalice0xm51", market := "0xm5", user := "0xalice", outcomeIndex := 1
              quantityBought := amount, quantitySold := 0, netQuantity := amount
              valueBought := amount.tdiv 2, valueSold := 0, netValue := amount.tdiv 2 }),
          ("0xalice0xm50",
            { id := "0xalice0xm50", market := "0xm5", user := "0xalice", outcomeIndex := 0
              quantityBought := amount, quantitySold := 0, netQuantity := amount
              valueBought := amount.tdiv 2, valueSold := 0, netValue := amount.tdiv 2 })] := by
    simp [c5Once, handlePositionSplit, c5SplitEvent, c5Store, c5Condition,
      emptyStore, getSplitEventKey, Store.saveSplit, Store.addLog, hpc, hrange, h0, h1,
      negRiskAdapterAddress, exchangeAddress, updateMarketPositionsFromSplit,
      getMarketPosition, applySplitToPosition, updateNetPositionAndSave,
      Store.savePosition, ite_marketPositions, ite_conditions, ite_fpmms, ite_self,
      recomputeNets, lookupEntity, List.foldl_cons, List.foldl_nil]
  have hfp : (c5Once amount).fpmms = c5Store.fpmms := by
    simp [c5Once, handlePositionSplit, c5SplitEvent, c5Store, c5Condition,
      emptyStore, getSplitEventKey, Store.saveSplit, Store.addLog, hpc, hrange, h0, h1,
      negRiskAdapterAddress, exchangeAddress, updateMarketPositionsFromSplit,
      getMarketPosition, applySplitToPosition, updateNetPositionAndSave,
      Store.savePosition, ite_marketPositions, ite_conditions, ite_fpmms, ite_self,
      recomputeNets, lookupEntity, List.foldl_cons, List.foldl_nil]
  have hcond : (c5Once amount).conditions = c5Store.conditions := by
    simp [c5Once, handlePositionSplit, c5SplitEvent, c5Store, c5Condition,
      emptyStore, getSplitEventKey, Store.saveSplit, Store.addLog, hpc, hrange, h0, h1,
      negRiskAdapterAddress, exchangeAddress, updateMarketPositionsFromSplit,
      getMarketPosition, applySplitToPosition, updateNetPositionAndSave,
      Store.savePosition, ite_marketPositions, ite_conditions, ite_fpmms, ite_self,
      recomputeNets, lookupEntity, List.foldl_cons, List.foldl_nil]
  constructor
  · rw [hmp, h0]
    simp [lookupEntity]
  · simp [c5Twice, handlePositionSplit, c5SplitEvent, hfp, hcond, hmp, c5Store,
      c5Condition, getSplitEventKey, Store.saveSplit, Store.addLog, hpc, hrange, h0, h1,
      negRiskAdapterAddress, exchangeAddress, updateMarketPositionsFromSplit,
      getMarketPosition, applySplitToPosition, updateNetPositionAndSave,
      Store.savePosition, ite_marketPositions, ite_conditions, ite_fpmms, ite_self,
      recomputeNets, lookupEntity, List.foldl_cons, List.foldl_nil]
